import Mathlib

/-!
Verification of the ZabbixProgram repository's statistics / time-range /
report-assembly core against its natural-language specification.

Shallow embedding conventions:
* Python floats are modelled as exact rationals (`ℚ`).  `round(x, 2)` (which
  rounds half to even on floats) is modelled as exact round-half-even to a
  multiple of 1/100; `np.sqrt` followed by `round(_, 2)` is modelled exactly
  on rationals by `sqrtRound2`.
* pandas `NaN` results (the sample standard deviation of a single point) are
  modelled with `Option`; trend points are modelled after `pd.to_numeric`
  succeeded, i.e. with rational fields.
* `datetime` values are naive civil date-times (no DST / microseconds);
  `datetime.timestamp()` is the usual seconds-since-epoch encoding of the
  civil fields.
* reportlab flowables are modelled as opaque story elements carrying the data
  that the generator puts into them; building the PDF file itself and the
  matplotlib chart rendering are external collaborators and always succeed in
  the model.
-/

/-! ## Round-half-even (Python `round`) on rationals -/

/-- Round a rational to the nearest integer, ties to even (Python banker's
rounding, as performed by `round` on floats). -/
def rhe (x : ℚ) : ℤ :=
  if x - (x.floor : ℚ) < 1/2 then x.floor
  else if 1/2 < x - (x.floor : ℚ) then x.floor + 1
  else if x.floor % 2 = 0 then x.floor else x.floor + 1

/-- Python `round(x, 2)`: round-half-even to a multiple of 1/100. -/
def round2 (x : ℚ) : ℚ := ((rhe (100 * x) : ℤ) : ℚ) / 100

/-- Exact model of `round(np.sqrt v, 2)` for `v ≥ 0`: round-half-even of
`sqrt (10000 * v)`, divided by 100.  `Nat.sqrt` of the floor gives the integer
part of the square root; the tie/branch tests compare `10000 * v` with
`(n + 1/2)^2` exactly. -/
def sqrtRound2 (v : ℚ) : ℚ :=
  let w : ℚ := 10000 * v
  let n : ℕ := Nat.sqrt w.floor.toNat
  let lo : ℚ := ((n : ℚ) + 1/2) ^ 2
  let k : ℕ :=
    if w < lo then n
    else if lo < w then n + 1
    else if n % 2 = 0 then n else n + 1
  (k : ℚ) / 100

/-! ## Trend data model (`trend_analyzer.py`)

A `TrendPoint` is one row of the Zabbix trend response after the
`pd.to_numeric(..., errors='coerce')` conversions succeeded. -/

structure TrendPoint where
  clock : ℕ
  value_min : ℚ
  value_avg : ℚ
  value_max : ℚ
deriving DecidableEq, Repr

/-- `df['datetime'].dt.hour` for a Unix timestamp (UTC). -/
def hourOf (p : TrendPoint) : ℕ := p.clock / 3600 % 24

/-- Weekday index with Monday = 0 for a Unix timestamp (1970-01-01 was a
Thursday, index 3). -/
def dayIdxOf (p : TrendPoint) : ℕ := (p.clock / 86400 + 3) % 7

/-- Weekday names as produced by `df['datetime'].dt.day_name()`. -/
def weekdayNames : List String :=
  ["Monday", "Tuesday", "Wednesday", "Thursday", "Friday", "Saturday", "Sunday"]

def dayNameOf (p : TrendPoint) : String := weekdayNames.getD (dayIdxOf p) ""

/-- The seven weekday names in ascending lexicographic (alphabetical) order,
which is the key order `pandas.groupby` produces for the string column
`day_name`. -/
def alphaDayNames : List String :=
  ["Friday", "Monday", "Saturday", "Sunday", "Thursday", "Tuesday", "Wednesday"]

/-! ## List statistics helpers -/

/-- `Series.mean()` on a list of rationals. -/
def listMean (l : List ℚ) : ℚ := l.sum / (l.length : ℚ)

/-- `Series.min()` (`none` on an empty list). -/
def foldMin (l : List ℚ) : Option ℚ :=
  l.foldr (fun x acc => match acc with | none => some x | some y => some (min x y)) none

/-- `Series.max()` (`none` on an empty list). -/
def foldMax (l : List ℚ) : Option ℚ :=
  l.foldr (fun x acc => match acc with | none => some x | some y => some (max x y)) none

/-- Minimum of the `clock` column (`0` never occurs: only used on non-empty
series). -/
def foldMinNat (l : List ℕ) : Option ℕ :=
  l.foldr (fun x acc => match acc with | none => some x | some y => some (min x y)) none

def foldMaxNat (l : List ℕ) : Option ℕ :=
  l.foldr (fun x acc => match acc with | none => some x | some y => some (max x y)) none

/-- The ascending sort used by quantile computation. -/
def sortedAsc (l : List ℚ) : List ℚ := List.insertionSort (fun a b => a ≤ b) l

/-- Linear-interpolation quantile on an already sorted list
(`Series.quantile`, default `interpolation='linear'`). -/
def quantileSorted (q : ℚ) (s : List ℚ) : ℚ :=
  let n : ℕ := s.length
  let h : ℚ := ((n : ℚ) - 1) * q
  let i : ℕ := h.floor.toNat
  let lo : ℚ := s.getD i 0
  let hi : ℚ := s.getD (i + 1) lo
  lo + (h - (i : ℚ)) * (hi - lo)

/-- `Series.quantile(q)` on an unsorted list. -/
def quantile (q : ℚ) (l : List ℚ) : ℚ := quantileSorted q (sortedAsc l)

/-- Sample variance with `ddof = 1` (the quantity under the square root of
`Series.std()`). -/
def sampleVar (l : List ℚ) : ℚ :=
  (l.map (fun x => (x - listMean l) ^ 2)).sum / ((l.length : ℚ) - 1)

/-! ## Peak buckets -/

/-- Mean of `value_avg` over the points falling in hour bucket `h`
(`df.groupby('hour')['value_avg'].mean()` for one key). -/
def bucketMeanHour (pts : List TrendPoint) (h : ℕ) : ℚ :=
  listMean ((pts.filter (fun p => hourOf p == h)).map (fun p => p.value_avg))

/-- Mean of `value_avg` over the points falling on weekday `d`. -/
def bucketMeanDay (pts : List TrendPoint) (d : String) : ℚ :=
  listMean ((pts.filter (fun p => dayNameOf p == d)).map (fun p => p.value_avg))

/-- `df.groupby('hour')['value_avg'].mean()`: the (hour, mean) pairs for the
hours present in the series, in ascending hour order (groupby sorts its
integer keys ascending). -/
def hourGroups (pts : List TrendPoint) : List (ℕ × ℚ) :=
  ((List.range 24).filter (fun h => pts.any (fun p => hourOf p == h))).map
    (fun h => (h, bucketMeanHour pts h))

/-- `df.groupby('day_name')['value_avg'].mean()`: the (day-name, mean) pairs
for the weekdays present in the series, in ascending lexicographic order of
the name (groupby sorts its string keys alphabetically). -/
def dayGroups (pts : List TrendPoint) : List (String × ℚ) :=
  (alphaDayNames.filter (fun d => pts.any (fun p => dayNameOf p == d))).map
    (fun d => (d, bucketMeanDay pts d))

/-- `Series.nlargest(n)` with the default `keep='first'`: stable sort by
value descending (ties keep the original series order), take `n`, return the
index keys. -/
def nlargestKeys {α : Type} (n : ℕ) (l : List (α × ℚ)) : List α :=
  ((List.insertionSort (fun a b => b.2 ≤ a.2) l).take n).map Prod.fst

/-- Format an hour bucket as in `f"{h:02d}:00"`. -/
def fmtHour (h : ℕ) : String :=
  (if h < 10 then "0" ++ toString h else toString h) ++ ":00"

/-! ## Civil date from a Unix timestamp (for `period_start`/`period_end`) -/

/-- Civil (year, month, day) from a count of days since 1970-01-01
(standard days-from-epoch conversion for the proleptic Gregorian calendar). -/
def civilFromDays (z0 : ℤ) : ℤ × ℕ × ℕ :=
  let z : ℤ := z0 + 719468
  let era : ℤ := (if 0 ≤ z then z else z - 146096) / 146097
  let doe : ℕ := (z - era * 146097).toNat
  let yoe : ℕ := (doe - doe / 1460 + doe / 36524 - doe / 146096) / 365
  let y : ℤ := (yoe : ℤ) + era * 400
  let doy : ℕ := doe - (365 * yoe + yoe / 4 - yoe / 100)
  let mp : ℕ := (5 * doy + 2) / 153
  let d : ℕ := doy - (153 * mp + 2) / 5 + 1
  let m : ℕ := if mp < 10 then mp + 3 else mp - 9
  (if m ≤ 2 then y + 1 else y, m, d)

/-- The `%Y-%m-%d` date of a Unix timestamp (format kept as a (y, m, d)
triple; the zero-padded string rendering is injective presentation). -/
def dateOfClock (c : ℕ) : ℤ × ℕ × ℕ := civilFromDays ((c : ℤ) / 86400)

/-! ## `calculate_statistics` (trend_analyzer.py lines 145-199) -/

structure Stats where
  total_data_points : ℕ
  avg_monthly : ℚ
  max_absolute : ℚ
  min_absolute : ℚ
  p95 : ℚ
  p99 : ℚ
  std_deviation : Option ℚ
  peak_hours : List String
  peak_days : List String
  period_start : ℤ × ℕ × ℕ
  period_end : ℤ × ℕ × ℕ
deriving DecidableEq, Repr

/-- The statistics record computed for a non-empty trend series. -/
def statsOf (pts : List TrendPoint) : Stats :=
  { total_data_points := pts.length
    avg_monthly := round2 (listMean (pts.map (fun p => p.value_avg)))
    max_absolute := round2 ((foldMax (pts.map (fun p => p.value_max))).getD 0)
    min_absolute := round2 ((foldMin (pts.map (fun p => p.value_min))).getD 0)
    p95 := round2 (quantile (95/100) (pts.map (fun p => p.value_avg)))
    p99 := round2 (quantile (99/100) (pts.map (fun p => p.value_avg)))
    std_deviation :=
      if pts.length = 1 then none
      else some (sqrtRound2 (sampleVar (pts.map (fun p => p.value_avg))))
    peak_hours := (nlargestKeys 3 (hourGroups pts)).map fmtHour
    peak_days := nlargestKeys 3 (dayGroups pts)
    period_start := dateOfClock ((foldMinNat (pts.map (fun p => p.clock))).getD 0)
    period_end := dateOfClock ((foldMaxNat (pts.map (fun p => p.clock))).getD 0) }

/-- `calculate_statistics`: returns the empty dict (modelled `none`) on an
empty series, otherwise the populated statistics record. -/
def calculate_statistics (pts : List TrendPoint) : Option Stats :=
  if pts = [] then none else some (statsOf pts)

/-! ## Time-range resolution (`chart_downloader.calculate_time_range` and
`trend_analyzer._convert_time_range`)

Python `datetime` values are modelled as naive civil date-times; the
`timestamp()` encoding below is the standard days-from-civil conversion, a
strictly monotone encoding of civil instants (DST and microseconds are
outside the model). -/

structure PyDateTime where
  year : ℤ
  month : ℕ
  day : ℕ
  hour : ℕ
  minute : ℕ
  second : ℕ
deriving DecidableEq, Repr

def isLeapYear (y : ℤ) : Bool := y % 4 = 0 && (y % 100 ≠ 0 || y % 400 = 0)

def daysInMonth (m : ℕ) (y : ℤ) : ℕ :=
  if m = 2 then (if isLeapYear y then 29 else 28)
  else if m = 4 || m = 6 || m = 9 || m = 11 then 30
  else 31

/-- Days since 1970-01-01 of a civil date (standard days-from-civil
algorithm for the proleptic Gregorian calendar). -/
def daysFromCivil (y0 : ℤ) (m d : ℕ) : ℤ :=
  let y : ℤ := y0 - (if m ≤ 2 then 1 else 0)
  let era : ℤ := (if 0 ≤ y then y else y - 399) / 400
  let yoe : ℕ := (y - era * 400).toNat
  let doy : ℕ := (153 * (if 2 < m then m - 3 else m + 9) + 2) / 5 + d - 1
  let doe : ℕ := yoe * 365 + yoe / 4 - yoe / 100 + doy
  era * 146097 + (doe : ℤ) - 719468

/-- `int(dt.timestamp())` for a naive civil date-time. -/
def toTimestamp (dt : PyDateTime) : ℤ :=
  86400 * daysFromCivil dt.year dt.month dt.day
    + 3600 * (dt.hour : ℤ) + 60 * (dt.minute : ℤ) + (dt.second : ℤ)

/-- `dt - timedelta(days=1)` for a valid civil date-time (only the date moves). -/
def predDay (dt : PyDateTime) : PyDateTime :=
  if 1 < dt.day then { dt with day := dt.day - 1 }
  else if 1 < dt.month then
    { dt with month := dt.month - 1, day := daysInMonth (dt.month - 1) dt.year }
  else { dt with year := dt.year - 1, month := 12, day := 31 }

/-- `dt - timedelta(seconds=1)` for a valid civil date-time. -/
def predSecond (dt : PyDateTime) : PyDateTime :=
  if 0 < dt.second then { dt with second := dt.second - 1 }
  else if 0 < dt.minute then { dt with minute := dt.minute - 1, second := 59 }
  else if 0 < dt.hour then { dt with hour := dt.hour - 1, minute := 59, second := 59 }
  else { predDay dt with hour := 23, minute := 59, second := 59 }

/-- `now.replace(day=1, hour=0, minute=0, second=0, microsecond=0)`. -/
def firstOfCurrentMonth (now : PyDateTime) : PyDateTime :=
  { now with day := 1, hour := 0, minute := 0, second := 0 }

/-- `parse_time` inside `_convert_time_range` (trend_analyzer.py 74-97):
resolves one Zabbix relative time token to a Unix timestamp.  The final
`int(t)` fallback is the string-to-integer parse, `none` on failure
(Python would raise `ValueError`). -/
def parse_time (now : PyDateTime) (t : String) (is_to : Bool) : Option ℤ :=
  if t = "now" then some (toTimestamp now)
  else if t = "now-30d" then some (toTimestamp now - 30 * 24 * 3600)
  else if t = "now-1M/M" then
    if is_to then some (toTimestamp (predSecond (firstOfCurrentMonth now)))
    else
      some (toTimestamp (firstOfCurrentMonth (predDay (firstOfCurrentMonth now))))
  else if t = "now/M" then some (toTimestamp (firstOfCurrentMonth now))
  else t.toInt?

/-- `_convert_time_range` (trend_analyzer.py 68-104). -/
def convert_time_range (now : PyDateTime) (time_from time_to : String) :
    Option (ℤ × ℤ) := do
  let a ← parse_time now time_from false
  let b ← parse_time now time_to true
  pure (a, b)

/-- `calculate_time_range` (chart_downloader.py 86-117); `none` models the
raised `ValueError` for an unknown period type. -/
def calculate_time_range (period_type : String) : Option (String × String) :=
  if period_type = "last_30_days" then some ("now-30d", "now")
  else if period_type = "previous_month" then some ("now-1M/M", "now-1M/M")
  else if period_type = "current_month" then some ("now/M", "now")
  else none

/-- Validity of a civil date-time (what `datetime` guarantees by
construction). -/
def ValidDateTime (dt : PyDateTime) : Prop :=
  1 ≤ dt.month ∧ dt.month ≤ 12 ∧ 1 ≤ dt.day ∧ dt.day ≤ daysInMonth dt.month dt.year
    ∧ dt.hour < 24 ∧ dt.minute < 60 ∧ dt.second < 60

instance (dt : PyDateTime) : Decidable (ValidDateTime dt) := by
  unfold ValidDateTime; infer_instance

/-- The month strictly before the month containing `now`, as (year, month). -/
def prevMonthOf (now : PyDateTime) : ℤ × ℕ :=
  if now.month = 1 then (now.year - 1, 12) else (now.year, now.month - 1)

/-- First instant of the calendar month strictly before the month containing
`now`. -/
def firstInstantOfPrevMonth (now : PyDateTime) : PyDateTime :=
  { year := (prevMonthOf now).1, month := (prevMonthOf now).2,
    day := 1, hour := 0, minute := 0, second := 0 }

/-- Last instant (at second granularity) of the calendar month strictly
before the month containing `now`. -/
def lastInstantOfPrevMonth (now : PyDateTime) : PyDateTime :=
  { year := (prevMonthOf now).1, month := (prevMonthOf now).2,
    day := daysInMonth (prevMonthOf now).2 (prevMonthOf now).1,
    hour := 23, minute := 59, second := 59 }

/-! ## Filename sanitizer (`chart_downloader._sanitize_filename`) -/

/-- The characters removed by the regex class `[<>:"/\\|?*]`. -/
def isInvalidFileChar (c : Char) : Bool :=
  c = '<' || c = '>' || c = ':' || c = '"' || c = '/' || c = '\\' ||
  c = '|' || c = '?' || c = '*'

/-- Characters matched by the regex `\s` on a Python `str` (ASCII whitespace,
the C1 information separators, and the Unicode White_Space code points). -/
def isPySpace (c : Char) : Bool :=
  c = ' ' || c = '\t' || c = '\n' || c = '\x0b' || c = '\x0c' || c = '\r' ||
  c = '\x1c' || c = '\x1d' || c = '\x1e' || c = '\x1f' || c = '\x85' ||
  c = '\xa0' || c = ' ' || c = ' ' || c = ' ' || c = ' ' ||
  c = ' ' || c = ' ' || c = ' ' || c = ' ' || c = ' ' ||
  c = ' ' || c = ' ' || c = ' ' || c = ' ' || c = ' ' ||
  c = ' ' || c = ' ' || c = '　'

/-- `re.sub(p+, '_', s)` for a single-character class `p`: every maximal run
of characters matching `p` is replaced by one underscore.  The boolean flag
records whether the previous character was part of a run. -/
def subRunUnderscore (p : Char → Bool) : List Char → Bool → List Char
  | [], _ => []
  | c :: cs, inRun =>
    if p c then
      (if inRun then subRunUnderscore p cs true else '_' :: subRunUnderscore p cs true)
    else c :: subRunUnderscore p cs false

/-- Python `str.strip('_')`: drop leading and trailing underscores. -/
def stripUnderscores (l : List Char) : List Char :=
  ((l.dropWhile (fun c => c = '_')).reverse.dropWhile (fun c => c = '_')).reverse

/-- `_sanitize_filename` (chart_downloader.py 271-288) on the character list
of the input string: replace the invalid characters by `_`, collapse
whitespace runs to `_`, collapse underscore runs, truncate to 100
characters, strip leading/trailing underscores. -/
def sanitize_filename (name : List Char) : List Char :=
  let s1 := name.map (fun c => if isInvalidFileChar c then '_' else c)
  let s2 := subRunUnderscore isPySpace s1 false
  let s3 := subRunUnderscore (fun c => c = '_') s2 false
  stripUnderscores (s3.take 100)

/-! ## PDF report aggregator (`pdf_generator.py`)

reportlab flowables are modelled as opaque story elements carrying the data
the generator feeds them with; `Spacer` flowables and visual styling are
presentation and not modelled.  Chart creation (`_create_chart`) and
`doc.build` always succeed in the model. -/

/-- One element of `self.items_data` as appended by `add_item_data`. -/
structure ReportEntry where
  host : String
  item : String
  trends : List TrendPoint
  stats : Option Stats
  conclusion : Option String
deriving DecidableEq, Repr

/-- A row of the uptime table. -/
structure UptimeRow where
  metric : String
  value : String
deriving DecidableEq, Repr

/-- Story elements appended to the reportlab story by `generate_report`. -/
inductive StoryElem where
  | pageBreak : StoryElem
  | hostHeader (host : String) : StoryElem
  | divider : StoryElem
  | dateInfo : StoryElem
  | operativeBlock (incidentes riesgos alertas : String) : StoryElem
  | glossary : StoryElem
  | dimensionsTable (rendimiento contingencia soporte actualizaciones respaldos : String) : StoryElem
  | uptimeTable (rows : List UptimeRow) : StoryElem
  | itemsHeader : StoryElem
  | itemTitle (title : String) : StoryElem
  | chart (item : String) : StoryElem
  | dataCards (stats : Stats) : StoryElem
  | keepTogether (els : List StoryElem) : StoryElem
  | analysisPara (text : String) : StoryElem

/-- The mutable state of a `PDFReportGenerator` instance.  The Python string
dictionaries are modelled as association lists. -/
structure PDFGen where
  output_dir : String
  items_data : List ReportEntry
  report_config : List (String × String)
  report_defaults : List (String × String)
  host_configs : List (String × List (String × String))
  current_host : String
deriving DecidableEq

/-- The default texts installed by `__init__`. -/
def initialDefaults : List (String × String) :=
  [("incidentes", "No se presentan incidentes de servicio."),
   ("riesgos", "No se registran riesgos del servicio durante el periodo."),
   ("alertas", "No se evidencian alertas que afecten la continuidad operativa."),
   ("dim_rendimiento", "Sin observaciones"),
   ("dim_contingencia", "Sin observaciones"),
   ("dim_soporte", "Sin observaciones"),
   ("dim_actualizaciones", "Sin observaciones"),
   ("dim_respaldos", "Sin observaciones")]

/-- Python `str.strip()` (whitespace strip). -/
def pyStrip (s : String) : String :=
  String.mk (((s.toList.dropWhile isPySpace).reverse.dropWhile isPySpace).reverse)

/-- `_get_config_value` (pdf_generator.py 107-112). -/
def get_config_value (g : PDFGen) (key : String) : String :=
  let value := pyStrip ((g.report_config.lookup key).getD "")
  if value = "" then (g.report_defaults.lookup key).getD "" else value

/-- `_get_host_config_value` (pdf_generator.py 114-120), for an explicit
current host. -/
def get_host_config_value (g : PDFGen) (host key : String) : String :=
  let host_config := (g.host_configs.lookup host).getD []
  let value := pyStrip ((host_config.lookup key).getD "")
  if value = "" then (g.report_defaults.lookup key).getD "" else value

/-- `add_item_data` (pdf_generator.py 182-201). -/
def add_item_data (g : PDFGen) (host_name item_name : String)
    (trends : List TrendPoint) (stats : Option Stats)
    (conclusion : Option String) : PDFGen :=
  { g with items_data := g.items_data ++
      [{ host := host_name, item := item_name, trends := trends,
         stats := stats, conclusion := conclusion }] }

/-- `clear_data` (pdf_generator.py 618-620). -/
def clear_data (g : PDFGen) : PDFGen := { g with items_data := [] }

/-- First-seen order of the distinct host names in `items_data` (the key
order of the Python dict built by the grouping loop). -/
def hostKeys : List ReportEntry → List String
  | [] => []
  | e :: es => e.host :: (hostKeys es).filter (fun h => h != e.host)

/-- The host-grouped entries, keys in first-seen order, each host's entries
in append order. -/
def groupsOf (l : List ReportEntry) : List (String × List ReportEntry) :=
  (hostKeys l).map (fun h => (h, l.filter (fun e => e.host == h)))

/-- `_create_operative_block` for one host (intro paragraph merged into the
opaque element). -/
def operativeBlock (g : PDFGen) (host : String) : StoryElem :=
  .operativeBlock (get_host_config_value g host "incidentes")
    (get_host_config_value g host "riesgos")
    (get_host_config_value g host "alertas")

/-- `_create_dimensions_table`. -/
def dimensionsTable (g : PDFGen) : StoryElem :=
  .dimensionsTable (get_config_value g "dim_rendimiento")
    (get_config_value g "dim_contingencia")
    (get_config_value g "dim_soporte")
    (get_config_value g "dim_actualizaciones")
    (get_config_value g "dim_respaldos")

/-- `_create_uptime_section` (pdf_generator.py 454-494): the section is
omitted entirely when all three uptime fields are blank after stripping. -/
def uptimeSection (g : PDFGen) : List StoryElem :=
  let uptime_fecha := pyStrip ((g.report_config.lookup "uptime_fecha").getD "")
  let uptime_servidor := pyStrip ((g.report_config.lookup "uptime_servidor").getD "")
  let uptime_bd := pyStrip ((g.report_config.lookup "uptime_bd").getD "")
  if uptime_fecha = "" && uptime_servidor = "" && uptime_bd = "" then []
  else
    [.uptimeTable
      ((if uptime_fecha = "" then [] else [⟨"Fecha Último Inicio", uptime_fecha⟩]) ++
       (if uptime_servidor = "" then [] else [⟨"Uptime Servidor", uptime_servidor⟩]) ++
       (if uptime_bd = "" then [] else [⟨"Uptime BD", uptime_bd⟩]))]

/-- The flowables produced for one item (pdf_generator.py 574-607): the
`KeepTogether`-wrapped item section (title, chart when trend data exists,
data cards when statistics exist), followed by the analysis paragraph when a
non-empty conclusion exists. -/
def itemElems (e : ReportEntry) : List StoryElem :=
  let item_section : List StoryElem :=
    [.itemTitle e.item.toUpper] ++
    (if e.trends = [] then [] else [.chart e.item]) ++
    (match e.stats with | some st => [.dataCards st] | none => [])
  if (e.conclusion.getD "") = "" then [.keepTogether item_section]
  else [.keepTogether item_section,
        .analysisPara (pyStrip (((e.conclusion.getD "").replace "\n" " ")))]

/-- The flowables produced for one host section (pdf_generator.py 536-607):
an explicit page break for every host after the first, then the host header,
divider, date line, operative block, severity glossary, dimensions table,
conditional uptime section, items header, and the per-item flowables in
append order. -/
def hostSection (g : PDFGen) (withBreak : Bool) (grp : String × List ReportEntry) :
    List StoryElem :=
  (if withBreak then [.pageBreak] else []) ++
  [.hostHeader grp.1, .divider, .dateInfo,
   operativeBlock g grp.1, .glossary, dimensionsTable g] ++
  uptimeSection g ++ [.itemsHeader] ++ grp.2.flatMap itemElems

/-- The full story built by `generate_report` for a non-empty `items_data`. -/
def buildStory (g : PDFGen) : List StoryElem :=
  match groupsOf g.items_data with
  | [] => []
  | grp :: grps => hostSection g false grp ++ grps.flatMap (hostSection g true)

/-- `generate_report` (pdf_generator.py 496-616).  Returns the new generator
state (the loop mutates only `current_host`) and, when there is data, the
output path together with the story handed to `doc.build`; `none` models the
early `return ""` with no file created.  The generation timestamp is passed
in explicitly. -/
def generate_report (g : PDFGen) (report_name timestamp : String) :
    PDFGen × Option (String × List StoryElem) :=
  if g.items_data = [] then (g, none)
  else
    ({ g with current_host := (hostKeys g.items_data).getLastD g.current_host },
     some (g.output_dir ++ "/" ++ report_name ++ "_" ++ timestamp ++ ".pdf",
           buildStory g))

/-! ## Specification-side definitions

These follow the wording of the specification claims (not the code) and are
compared against the code-side definitions above. -/

/-- Position of a weekday name in the alphabetically ordered name list
(so `alphaIdxOf d ≤ alphaIdxOf e` is alphabetical order on the seven
weekday names). -/
def alphaIdxOf (d : String) : ℕ := alphaDayNames.indexOf d

/-- Weekday index with Monday = 0 of a weekday name, as the claim for peak
days words it. -/
def wdIdxOf (d : String) : ℕ := weekdayNames.indexOf d

/-- Strict-total "top" order on hour buckets, per the claim: mean descending,
ties by ascending hour number. -/
def hourTopOrder (a b : ℕ × ℚ) : Prop :=
  b.2 < a.2 ∨ (a.2 = b.2 ∧ a.1 ≤ b.1)

instance : DecidableRel hourTopOrder := by
  unfold hourTopOrder; infer_instance

/-- Per the original claim: mean descending, ties by ascending weekday index
(Monday = 0). -/
def dayTopOrderClaim (a b : String × ℚ) : Prop :=
  b.2 < a.2 ∨ (a.2 = b.2 ∧ wdIdxOf a.1 ≤ wdIdxOf b.1)

instance : DecidableRel dayTopOrderClaim := by
  unfold dayTopOrderClaim; infer_instance

/-- Per the amended claim: mean descending, ties by ascending alphabetical
order of the weekday name. -/
def dayTopOrderAlpha (a b : String × ℚ) : Prop :=
  b.2 < a.2 ∨ (a.2 = b.2 ∧ alphaIdxOf a.1 ≤ alphaIdxOf b.1)

instance : DecidableRel dayTopOrderAlpha := by
  unfold dayTopOrderAlpha; infer_instance

/-- Specification-side peak hours: sort the hour buckets by the claim's
order (mean descending, ties by ascending hour), take the top 3, format. -/
def specPeakHours (pts : List TrendPoint) : List String :=
  ((((List.insertionSort hourTopOrder (hourGroups pts))).take 3).map Prod.fst).map fmtHour

/-- Peak days as the original claim words them: ties between equal-mean
weekday buckets broken by ascending weekday index, Monday = 0. -/
def specPeakDaysClaim (pts : List TrendPoint) : List String :=
  (((List.insertionSort dayTopOrderClaim (dayGroups pts))).take 3).map Prod.fst

/-- Peak days as the amended claim words them: ties broken by ascending
alphabetical order of the weekday name. -/
def specPeakDaysAlpha (pts : List TrendPoint) : List String :=
  (((List.insertionSort dayTopOrderAlpha (dayGroups pts))).take 3).map Prod.fst

/-! ## Concrete inputs used by counterexamples and witnesses -/

/-- Two equal-valued points, one on Friday 1970-01-02 and one on Monday
1970-01-05 (both at hour 0). -/
def cexPtsDays : List TrendPoint :=
  [⟨86400, 10, 10, 10⟩, ⟨345600, 10, 10, 10⟩]

/-- Three points whose exact mean 5/3 is not representable with 2 decimal
places. -/
def cexPtsMean : List TrendPoint :=
  [⟨0, 1, 1, 1⟩, ⟨3600, 2, 2, 2⟩, ⟨7200, 2, 2, 2⟩]

/-- The spec's scenario series: one point per hour at hours 0, 1, 2. -/
def scenarioPts : List TrendPoint :=
  [⟨0, 10, 10, 10⟩, ⟨3600, 20, 20, 20⟩, ⟨7200, 30, 30, 30⟩]

/-! ## Statement helpers for the report-structure claims -/

def isPageBreak : StoryElem → Bool
  | .pageBreak => true
  | _ => false

def headerHostOf : StoryElem → Option String
  | .hostHeader h => some h
  | _ => none

def titleOf : StoryElem → Option String
  | .itemTitle t => some t
  | _ => none

/-- The item titles contained in one top-level story element (item titles are
emitted inside `KeepTogether` wrappers). -/
def titlesIn : StoryElem → List String
  | .keepTogether els => els.filterMap titleOf
  | _ => []

/-! ## Helper lemmas: stable descending sort versus the claim's total order -/

theorem orderedInsert_congr {α : Type} (r s : α → α → Prop)
    [DecidableRel r] [DecidableRel s] (a : α) (l : List α)
    (h : ∀ b ∈ l, r a b ↔ s a b) :
    List.orderedInsert r a l = List.orderedInsert s a l := by
  induction l with
  | nil => rfl
  | cons b m ih =>
    have hb : r a b ↔ s a b := h b (List.mem_cons_self b m)
    by_cases hr : r a b
    · rw [List.orderedInsert, List.orderedInsert, if_pos hr, if_pos (hb.mp hr)]
    · rw [List.orderedInsert, List.orderedInsert, if_neg hr,
        if_neg (fun hs => hr (hb.mpr hs)),
        ih (fun c hc => h c (List.mem_cons_of_mem b hc))]

theorem insertionSort_congr {α : Type} (r s : α → α → Prop)
    [DecidableRel r] [DecidableRel s] (l : List α)
    (h : l.Pairwise (fun a b => r a b ↔ s a b)) :
    List.insertionSort r l = List.insertionSort s l := by
  induction l with
  | nil => rfl
  | cons a m ih =>
    rcases List.pairwise_cons.mp h with ⟨ha, hm⟩
    rw [List.insertionSort, List.insertionSort, ih hm]
    exact orderedInsert_congr r s a (List.insertionSort s m)
      (fun b hb => ha b ((List.mem_insertionSort s).mp hb))

/-- On a list whose keys are strictly increasing, the stable descending sort
by value (pandas `nlargest` order) agrees with sorting by the total order
"value descending, ties by ascending key". -/
theorem insertionSort_desc_eq_keyOrder {α : Type} (key : α → ℕ) (val : α → ℚ)
    (l : List α) (hl : l.Pairwise (fun a b => key a < key b)) :
    List.insertionSort (fun a b => val b ≤ val a) l
      = List.insertionSort (fun a b => val b < val a ∨ (val a = val b ∧ key a ≤ key b)) l := by
  apply insertionSort_congr
  refine hl.imp (fun {a b} hk => ?_)
  constructor
  · intro hle
    rcases lt_or_eq_of_le hle with hlt | heq
    · exact Or.inl hlt
    · exact Or.inr ⟨heq.symm, Nat.le_of_lt hk⟩
  · intro hor
    rcases hor with hlt | ⟨heq, _⟩
    · exact le_of_lt hlt
    · exact le_of_eq heq.symm

theorem hourGroups_keys_strict (pts : List TrendPoint) :
    (hourGroups pts).Pairwise (fun a b => a.1 < b.1) := by
  unfold hourGroups
  refine List.Pairwise.map _ (fun a b h => h) ?_
  exact ((List.pairwise_lt_range 24).filter _)

theorem alphaDayNames_alphaIdx_strict :
    alphaDayNames.Pairwise (fun d e => alphaIdxOf d < alphaIdxOf e) := by
  unfold alphaIdxOf alphaDayNames
  decide

theorem dayGroups_keys_strict (pts : List TrendPoint) :
    (dayGroups pts).Pairwise (fun a b => alphaIdxOf a.1 < alphaIdxOf b.1) := by
  unfold dayGroups
  refine List.Pairwise.map _ (fun a b h => h) ?_
  exact alphaDayNames_alphaIdx_strict.filter _

theorem statsOf_peak_hours_eq_spec (pts : List TrendPoint) :
    (statsOf pts).peak_hours = specPeakHours pts := by
  show (nlargestKeys 3 (hourGroups pts)).map fmtHour = specPeakHours pts
  unfold nlargestKeys specPeakHours
  rw [insertionSort_desc_eq_keyOrder Prod.fst Prod.snd _ (hourGroups_keys_strict pts)]
  rfl

theorem statsOf_peak_days_eq_alpha (pts : List TrendPoint) :
    (statsOf pts).peak_days = specPeakDaysAlpha pts := by
  show nlargestKeys 3 (dayGroups pts) = specPeakDaysAlpha pts
  unfold nlargestKeys specPeakDaysAlpha
  have h := insertionSort_desc_eq_keyOrder (fun a : String × ℚ => alphaIdxOf a.1)
    Prod.snd (dayGroups pts) (dayGroups_keys_strict pts)
  rw [h]
  rfl

/-! ## Claim C1 -/

/-- C1 counterexample: on two equal-valued points falling on Friday and
Monday, the code returns peak days `["Friday", "Monday"]` (alphabetical
tie-break from the string groupby), while the claim's tie-break by weekday
index (Monday = 0) prescribes `["Monday", "Friday"]`. -/
theorem claim_C1_counterexample :
    (calculate_statistics cexPtsDays).map (fun s => s.peak_days)
        = some ["Friday", "Monday"]
      ∧ specPeakDaysClaim cexPtsDays = ["Monday", "Friday"]
      ∧ (["Friday", "Monday"] : List String) ≠ ["Monday", "Friday"] := by
  have hfri : cexPtsDays.filter (fun p => dayNameOf p == "Friday")
      = [⟨86400, 10, 10, 10⟩] := by decide
  have hmon : cexPtsDays.filter (fun p => dayNameOf p == "Monday")
      = [⟨345600, 10, 10, 10⟩] := by decide
  have hpresent : alphaDayNames.filter
      (fun d => cexPtsDays.any (fun p => dayNameOf p == d)) = ["Friday", "Monday"] := by
    decide
  have hbf : bucketMeanDay cexPtsDays "Friday" = 10 := by
    rw [bucketMeanDay, hfri]; norm_num [listMean]
  have hbm : bucketMeanDay cexPtsDays "Monday" = 10 := by
    rw [bucketMeanDay, hmon]; norm_num [listMean]
  have hdg : dayGroups cexPtsDays = [("Friday", 10), ("Monday", 10)] := by
    rw [dayGroups, hpresent]
    simp [hbf, hbm]
  refine ⟨?_, ?_, by decide⟩
  · have h1 : calculate_statistics cexPtsDays = some (statsOf cexPtsDays) := by
      rw [calculate_statistics, if_neg (by decide)]
    rw [h1]
    show some (nlargestKeys 3 (dayGroups cexPtsDays)) = some ["Friday", "Monday"]
    rw [hdg]
    decide
  · show ((List.insertionSort dayTopOrderClaim (dayGroups cexPtsDays)).take 3).map
        Prod.fst = ["Monday", "Friday"]
    rw [hdg]
    decide

/-- C1 (amended): for every non-empty trend series, peak hours and peak days
are the top 3 buckets by mean of the avg field in descending order, where
ties between buckets with equal means are broken by natural ascending order
of the hour number for peak hours, and by ascending alphabetical order of
the English weekday name for peak days. -/
theorem claim_C1_peaks (pts : List TrendPoint) (h : pts ≠ []) (s : Stats)
    (hs : calculate_statistics pts = some s) :
    s.peak_hours = specPeakHours pts ∧ s.peak_days = specPeakDaysAlpha pts := by
  rw [calculate_statistics, if_neg h] at hs
  cases hs
  exact ⟨statsOf_peak_hours_eq_spec pts, statsOf_peak_days_eq_alpha pts⟩

theorem claim_C1_witness :
    scenarioPts ≠ [] ∧ (statsOf scenarioPts).peak_hours = specPeakHours scenarioPts
      ∧ (statsOf scenarioPts).peak_days = specPeakDaysAlpha scenarioPts := by
  refine ⟨by decide, ?_⟩
  exact claim_C1_peaks scenarioPts (by decide) (statsOf scenarioPts)
    (by rw [calculate_statistics, if_neg (by decide)])

/-! ## Claim C7 -/

/-- C7: computing statistics on an empty trend series returns the explicit
"no data" marker (`none`, modelling the empty dict), which is distinct from
every populated summary; on any non-empty series a populated summary is
returned.  Totality of `calculate_statistics` models "never raises". -/
theorem claim_C7 :
    calculate_statistics ([] : List TrendPoint) = none
      ∧ ∀ pts : List TrendPoint, pts ≠ [] → ∃ s, calculate_statistics pts = some s := by
  constructor
  · rw [calculate_statistics, if_pos rfl]
  · intro pts h
    exact ⟨statsOf pts, by rw [calculate_statistics, if_neg h]⟩

theorem claim_C7_witness :
    calculate_statistics ([] : List TrendPoint) = none
      ∧ ∃ s, calculate_statistics scenarioPts = some s :=
  ⟨claim_C7.1, claim_C7.2 scenarioPts (by decide)⟩

/-! ## Rounding lemmas -/

theorem rat_floor_cast_le (x : ℚ) : (x.floor : ℚ) ≤ x :=
  Rat.le_floor.mp (le_refl _)

theorem rat_lt_floor_add_one (x : ℚ) : x < (x.floor : ℚ) + 1 := by
  by_contra hcon
  push_neg at hcon
  have : x.floor + 1 ≤ x.floor := Rat.le_floor.mpr (by push_cast; linarith)
  omega

theorem rat_floor_mono {x y : ℚ} (h : x ≤ y) : x.floor ≤ y.floor :=
  Rat.le_floor.mpr (le_trans (rat_floor_cast_le x) h)

theorem rhe_ge_floor (x : ℚ) : x.floor ≤ rhe x := by
  unfold rhe; split_ifs <;> omega

theorem rhe_le_floor_succ (x : ℚ) : rhe x ≤ x.floor + 1 := by
  unfold rhe; split_ifs <;> omega

theorem rhe_le (x : ℚ) : (rhe x : ℚ) ≤ x + 1/2 := by
  have h1 := rat_floor_cast_le x
  have h2 := rat_lt_floor_add_one x
  unfold rhe
  split_ifs with ha hb hc <;> push_cast <;> linarith

theorem le_rhe (x : ℚ) : x - 1/2 ≤ (rhe x : ℚ) := by
  have h1 := rat_floor_cast_le x
  have h2 := rat_lt_floor_add_one x
  unfold rhe
  split_ifs with ha hb hc <;> push_cast <;> linarith

theorem rhe_mono {x y : ℚ} (h : x ≤ y) : rhe x ≤ rhe y := by
  rcases eq_or_lt_of_le (rat_floor_mono h) with hf | hf
  · unfold rhe
    rw [← hf]
    split_ifs <;> first | omega | (exfalso; linarith)
  · calc rhe x ≤ x.floor + 1 := rhe_le_floor_succ x
      _ ≤ y.floor := hf
      _ ≤ rhe y := rhe_ge_floor y

theorem round2_mono {x y : ℚ} (h : x ≤ y) : round2 x ≤ round2 y := by
  unfold round2
  have h2 : rhe (100 * x) ≤ rhe (100 * y) := rhe_mono (by linarith)
  have h3 : ((rhe (100 * x) : ℤ) : ℚ) ≤ ((rhe (100 * y) : ℤ) : ℚ) := by
    exact_mod_cast h2
  linarith

theorem round2_close (x : ℚ) : |round2 x - x| ≤ 1/200 := by
  have h1 := rhe_le (100 * x)
  have h2 := le_rhe (100 * x)
  rw [abs_le]
  unfold round2
  constructor <;> linarith

theorem round2_hundredth (x : ℚ) : ∃ k : ℤ, round2 x = (k : ℚ) / 100 :=
  ⟨rhe (100 * x), rfl⟩

theorem sqrtRound2_hundredth (v : ℚ) : ∃ k : ℤ, sqrtRound2 v = (k : ℚ) / 100 := by
  simp only [sqrtRound2]
  split_ifs with ha hb hc
  · exact ⟨Nat.sqrt (10000 * v).floor.toNat, by push_cast; ring⟩
  · exact ⟨Nat.sqrt (10000 * v).floor.toNat + 1, by push_cast; ring⟩
  · exact ⟨Nat.sqrt (10000 * v).floor.toNat, by push_cast; ring⟩
  · exact ⟨Nat.sqrt (10000 * v).floor.toNat + 1, by push_cast; ring⟩

theorem sampleVar_nonneg (l : List ℚ) (h : 2 ≤ l.length) : 0 ≤ sampleVar l := by
  rw [sampleVar]
  apply div_nonneg
  · apply List.sum_nonneg
    intro x hx
    rcases List.mem_map.mp hx with ⟨y, _, rfl⟩
    exact sq_nonneg _
  · have h2 : (2 : ℚ) ≤ (l.length : ℚ) := by exact_mod_cast h
    linarith

/-- `sqrtRound2 s` (the engine's rounded standard deviation) lies within
1/200 of the exact square root of `s`, for `s ≥ 0`. -/
theorem sqrtRound2_close (s : ℚ) (hs : 0 ≤ s) :
    |((sqrtRound2 s : ℚ) : ℝ) - Real.sqrt ((s : ℚ) : ℝ)| ≤ 1/200 := by
  have hw : (0 : ℚ) ≤ 10000 * s := by linarith
  have hfl0 : (0 : ℤ) ≤ (10000 * s).floor := Rat.le_floor.mpr (by exact_mod_cast hw)
  have h1 : (((10000 * s).floor.toNat : ℚ)) = (((10000 * s).floor : ℤ) : ℚ) := by
    exact_mod_cast congrArg (fun z : ℤ => (z : ℚ)) (Int.toNat_of_nonneg hfl0)
  have htn : (((10000 * s).floor.toNat : ℚ)) ≤ 10000 * s := by
    rw [h1]
    exact rat_floor_cast_le _
  have hlt : 10000 * s < ((10000 * s).floor.toNat : ℚ) + 1 := by
    rw [h1]
    exact rat_lt_floor_add_one _
  set m : ℕ := (10000 * s).floor.toNat with hm
  set n : ℕ := Nat.sqrt m with hn
  have hn2le : ((n : ℚ)) ^ 2 ≤ (m : ℚ) := by exact_mod_cast Nat.sqrt_le' m
  have hmlt : (m : ℚ) + 1 ≤ ((n : ℚ) + 1) ^ 2 := by
    have h0 := Nat.lt_succ_sqrt' m
    rw [Nat.succ_eq_add_one] at h0
    have h2 : m + 1 ≤ (n + 1) ^ 2 := Nat.succ_le_of_lt (by rw [hn]; exact h0)
    exact_mod_cast h2
  have hA : ((n : ℝ)) ^ 2 ≤ ((10000 * s : ℚ) : ℝ) := by
    have h3 : ((n : ℚ)) ^ 2 ≤ 10000 * s := le_trans hn2le htn
    exact_mod_cast h3
  have hB : ((10000 * s : ℚ) : ℝ) < ((n : ℝ) + 1) ^ 2 := by
    have h3 : 10000 * s < ((n : ℚ) + 1) ^ 2 := lt_of_lt_of_le hlt hmlt
    exact_mod_cast h3
  have hwR : (0 : ℝ) ≤ ((10000 * s : ℚ) : ℝ) := by exact_mod_cast hw
  have hu1 : (n : ℝ) ≤ Real.sqrt ((10000 * s : ℚ) : ℝ) :=
    (Real.le_sqrt (by positivity) hwR).mpr hA
  have hu2 : Real.sqrt ((10000 * s : ℚ) : ℝ) < (n : ℝ) + 1 :=
    (Real.sqrt_lt' (by positivity)).mpr hB
  have hsplit : Real.sqrt ((10000 * s : ℚ) : ℝ) = 100 * Real.sqrt ((s : ℚ) : ℝ) := by
    have h100 : ((10000 * s : ℚ) : ℝ) = (100 : ℝ) ^ 2 * ((s : ℚ) : ℝ) := by
      push_cast
      ring
    rw [h100, Real.sqrt_mul (by positivity), Real.sqrt_sq (by norm_num)]
  set u : ℝ := Real.sqrt ((10000 * s : ℚ) : ℝ) with hu
  have hgoalify : Real.sqrt ((s : ℚ) : ℝ) = u / 100 := by
    rw [hsplit]
    ring
  rw [hgoalify]
  simp only [sqrtRound2]
  rw [← hm, ← hn]
  have hcast : ((((n : ℚ) + 1/2) ^ 2 : ℚ) : ℝ) = ((n : ℝ) + 1/2) ^ 2 := by
    push_cast
    ring
  split_ifs with ha hb hc
  · have haR : ((10000 * s : ℚ) : ℝ) < ((n : ℝ) + 1/2) ^ 2 := by
      rw [← hcast]
      exact Rat.cast_lt.mpr ha
    have hub : u < (n : ℝ) + 1/2 := (Real.sqrt_lt' (by positivity)).mpr haR
    rw [abs_le]
    push_cast
    constructor <;> linarith
  · have hbR : ((n : ℝ) + 1/2) ^ 2 ≤ ((10000 * s : ℚ) : ℝ) := by
      rw [← hcast]
      exact Rat.cast_le.mpr (le_of_lt hb)
    have hub : (n : ℝ) + 1/2 ≤ u := (Real.le_sqrt (by positivity) hwR).mpr hbR
    rw [abs_le]
    push_cast
    constructor <;> linarith
  · have heq : ((10000 * s : ℚ) : ℝ) = (((n : ℝ) + 1/2)) ^ 2 := by
      rw [← hcast]
      exact congrArg (fun q : ℚ => (q : ℝ))
        (le_antisymm (not_lt.mp hb) (not_lt.mp ha))
    have huv : u = (n : ℝ) + 1/2 := by
      rw [hu, heq, Real.sqrt_sq (by positivity)]
    rw [abs_le]
    push_cast
    constructor <;> linarith
  · have heq : ((10000 * s : ℚ) : ℝ) = (((n : ℝ) + 1/2)) ^ 2 := by
      rw [← hcast]
      exact congrArg (fun q : ℚ => (q : ℝ))
        (le_antisymm (not_lt.mp hb) (not_lt.mp ha))
    have huv : u = (n : ℝ) + 1/2 := by
      rw [hu, heq, Real.sqrt_sq (by positivity)]
    rw [abs_le]
    push_cast
    constructor <;> linarith

/-! ## Claim C3 -/

/-- C3 counterexample: on a 3-point series with avg values 1, 2, 2 the exact
mean is 5/3, but the engine returns `round(5/3, 2) = 1.67`, so the returned
mean is a 2-decimal rounding, not the exact mean. -/
theorem claim_C3_counterexample :
    listMean (cexPtsMean.map (fun p => p.value_avg)) = 5/3
      ∧ (calculate_statistics cexPtsMean).map (fun s => s.avg_monthly)
          = some (167/100)
      ∧ ((167 : ℚ)/100) ≠ 5/3 := by
  have h1 : cexPtsMean.map (fun p => p.value_avg) = [1, 2, 2] := by decide
  have hmean : listMean ([1, 2, 2] : List ℚ) = 5/3 := by
    norm_num [listMean]
  have hround : round2 (5/3) = 167/100 := by
    have hfl : ((100 : ℚ) * (5/3)).floor = 166 := by
      have : ((100 : ℚ) * (5/3)).floor = ⌊(100 : ℚ) * (5/3)⌋ := rfl
      rw [this]
      norm_num
    rw [round2, rhe, hfl]
    norm_num
  refine ⟨by rw [h1]; exact hmean, ?_, by norm_num⟩
  have hcs : calculate_statistics cexPtsMean = some (statsOf cexPtsMean) := by
    rw [calculate_statistics, if_neg (by decide)]
  rw [hcs]
  show some (round2 (listMean (cexPtsMean.map (fun p => p.value_avg))))
      = some (167/100)
  rw [h1, hmean, hround]

/-- C3 (amended): every numeric field the engine returns is rounded to
2 decimal places inside the engine (an integer multiple of 1/100, within
1/200 of the exact statistic computed from the series); full precision is
not preserved. -/
theorem claim_C3_rounded (pts : List TrendPoint) (h : pts ≠ []) (s : Stats)
    (hs : calculate_statistics pts = some s) :
    ((∃ k : ℤ, s.avg_monthly = (k : ℚ) / 100)
        ∧ |s.avg_monthly - listMean (pts.map (fun p => p.value_avg))| ≤ 1/200)
      ∧ ((∃ k : ℤ, s.min_absolute = (k : ℚ) / 100)
        ∧ |s.min_absolute - (foldMin (pts.map (fun p => p.value_min))).getD 0| ≤ 1/200)
      ∧ ((∃ k : ℤ, s.max_absolute = (k : ℚ) / 100)
        ∧ |s.max_absolute - (foldMax (pts.map (fun p => p.value_max))).getD 0| ≤ 1/200)
      ∧ ((∃ k : ℤ, s.p95 = (k : ℚ) / 100)
        ∧ |s.p95 - quantile (95/100) (pts.map (fun p => p.value_avg))| ≤ 1/200)
      ∧ ((∃ k : ℤ, s.p99 = (k : ℚ) / 100)
        ∧ |s.p99 - quantile (99/100) (pts.map (fun p => p.value_avg))| ≤ 1/200)
      ∧ (∀ v, s.std_deviation = some v → (∃ k : ℤ, v = (k : ℚ) / 100)
        ∧ |((v : ℚ) : ℝ)
            - Real.sqrt ((sampleVar (pts.map (fun p => p.value_avg)) : ℚ) : ℝ)|
          ≤ 1/200) := by
  rw [calculate_statistics, if_neg h] at hs
  cases hs
  refine ⟨⟨round2_hundredth _, round2_close _⟩, ⟨round2_hundredth _, round2_close _⟩,
    ⟨round2_hundredth _, round2_close _⟩, ⟨round2_hundredth _, round2_close _⟩,
    ⟨round2_hundredth _, round2_close _⟩, ?_⟩
  intro v hv
  have hv2 : (if pts.length = 1 then (none : Option ℚ)
      else some (sqrtRound2 (sampleVar (pts.map (fun p => p.value_avg))))) = some v := hv
  split_ifs at hv2 with hlen
  rw [Option.some_inj] at hv2
  rw [← hv2]
  have hlen2 : 2 ≤ (pts.map (fun p => p.value_avg)).length := by
    rw [List.length_map]
    have h1 : 1 ≤ pts.length := List.length_pos.mpr h
    omega
  exact ⟨sqrtRound2_hundredth _, sqrtRound2_close _ (sampleVar_nonneg _ hlen2)⟩

theorem claim_C3_witness :
    scenarioPts ≠ []
      ∧ ((∃ k : ℤ, (statsOf scenarioPts).avg_monthly = (k : ℚ) / 100)
        ∧ |(statsOf scenarioPts).avg_monthly
            - listMean (scenarioPts.map (fun p => p.value_avg))| ≤ 1/200) := by
  refine ⟨by decide, ?_⟩
  exact (claim_C3_rounded scenarioPts (by decide) (statsOf scenarioPts)
    (by rw [calculate_statistics, if_neg (by decide)])).1

/-! ## Claim C5 -/

theorem foldMin_spec (l : List ℚ) (h : l ≠ []) :
    ∃ m, foldMin l = some m ∧ ∀ x ∈ l, m ≤ x := by
  induction l with
  | nil => exact absurd rfl h
  | cons y ys ih =>
    by_cases hys : ys = []
    · subst hys
      refine ⟨y, by simp [foldMin], ?_⟩
      intro x hx
      rcases List.mem_singleton.mp hx with rfl
      exact le_refl _
    · rcases ih hys with ⟨m, hm, hb⟩
      refine ⟨min y m, ?_, ?_⟩
      · show (match foldMin ys with
          | none => some y | some w => some (min y w)) = some (min y m)
        rw [hm]
      · intro x hx
        rcases List.mem_cons.mp hx with rfl | hxs
        · exact min_le_left _ _
        · exact le_trans (min_le_right _ _) (hb x hxs)

theorem foldMax_spec (l : List ℚ) (h : l ≠ []) :
    ∃ m, foldMax l = some m ∧ ∀ x ∈ l, x ≤ m := by
  induction l with
  | nil => exact absurd rfl h
  | cons y ys ih =>
    by_cases hys : ys = []
    · subst hys
      refine ⟨y, by simp [foldMax], ?_⟩
      intro x hx
      rcases List.mem_singleton.mp hx with rfl
      exact le_refl _
    · rcases ih hys with ⟨m, hm, hb⟩
      refine ⟨max y m, ?_, ?_⟩
      · show (match foldMax ys with
          | none => some y | some w => some (max y w)) = some (max y m)
        rw [hm]
      · intro x hx
        rcases List.mem_cons.mp hx with rfl | hxs
        · exact le_max_left _ _
        · exact le_trans (hb x hxs) (le_max_right _ _)

theorem length_mul_le_sum (l : List ℚ) (m : ℚ) (h : ∀ x ∈ l, m ≤ x) :
    (l.length : ℚ) * m ≤ l.sum := by
  induction l with
  | nil => simp
  | cons y ys ih =>
    have hy := h y (List.mem_cons_self y ys)
    have hys := ih (fun x hx => h x (List.mem_cons_of_mem y hx))
    rw [List.length_cons, List.sum_cons]
    push_cast
    linarith

theorem sum_le_length_mul (l : List ℚ) (m : ℚ) (h : ∀ x ∈ l, x ≤ m) :
    l.sum ≤ (l.length : ℚ) * m := by
  induction l with
  | nil => simp
  | cons y ys ih =>
    have hy := h y (List.mem_cons_self y ys)
    have hys := ih (fun x hx => h x (List.mem_cons_of_mem y hx))
    rw [List.length_cons, List.sum_cons]
    push_cast
    linarith

theorem le_listMean (l : List ℚ) (m : ℚ) (h : l ≠ []) (hb : ∀ x ∈ l, m ≤ x) :
    m ≤ listMean l := by
  have hn : (0 : ℚ) < (l.length : ℚ) := by
    have : 0 < l.length := List.length_pos.mpr h
    exact_mod_cast this
  rw [listMean, le_div_iff hn]
  calc m * (l.length : ℚ) = (l.length : ℚ) * m := by ring
    _ ≤ l.sum := length_mul_le_sum l m hb

theorem listMean_le (l : List ℚ) (m : ℚ) (h : l ≠ []) (hb : ∀ x ∈ l, x ≤ m) :
    listMean l ≤ m := by
  have hn : (0 : ℚ) < (l.length : ℚ) := by
    have : 0 < l.length := List.length_pos.mpr h
    exact_mod_cast this
  rw [listMean, div_le_iff hn]
  calc l.sum ≤ (l.length : ℚ) * m := sum_le_length_mul l m hb
    _ = m * (l.length : ℚ) := by ring

/-- C5: for every non-empty series whose points satisfy
`value_min ≤ value_avg ≤ value_max`, the computed summary satisfies
`min_absolute ≤ avg_monthly ≤ max_absolute`. -/
theorem claim_C5_min_avg_max (pts : List TrendPoint) (h : pts ≠ [])
    (hp : ∀ p ∈ pts, p.value_min ≤ p.value_avg ∧ p.value_avg ≤ p.value_max)
    (s : Stats) (hs : calculate_statistics pts = some s) :
    s.min_absolute ≤ s.avg_monthly ∧ s.avg_monthly ≤ s.max_absolute := by
  rw [calculate_statistics, if_neg h] at hs
  cases hs
  have hmins : pts.map (fun p => p.value_min) ≠ [] := by
    simpa using h
  have hmaxs : pts.map (fun p => p.value_max) ≠ [] := by
    simpa using h
  have havgs : pts.map (fun p => p.value_avg) ≠ [] := by
    simpa using h
  rcases foldMin_spec _ hmins with ⟨mn, hmn, hmnb⟩
  rcases foldMax_spec _ hmaxs with ⟨mx, hmx, hmxb⟩
  have hlow : ∀ x ∈ pts.map (fun p => p.value_avg), mn ≤ x := by
    intro x hx
    rcases List.mem_map.mp hx with ⟨p, hpmem, rfl⟩
    exact le_trans (hmnb _ (List.mem_map.mpr ⟨p, hpmem, rfl⟩)) (hp p hpmem).1
  have hhigh : ∀ x ∈ pts.map (fun p => p.value_avg), x ≤ mx := by
    intro x hx
    rcases List.mem_map.mp hx with ⟨p, hpmem, rfl⟩
    exact le_trans (hp p hpmem).2 (hmxb _ (List.mem_map.mpr ⟨p, hpmem, rfl⟩))
  constructor
  · show round2 ((foldMin (pts.map (fun p => p.value_min))).getD 0)
        ≤ round2 (listMean (pts.map (fun p => p.value_avg)))
    rw [hmn]
    exact round2_mono (le_listMean _ mn havgs hlow)
  · show round2 (listMean (pts.map (fun p => p.value_avg)))
        ≤ round2 ((foldMax (pts.map (fun p => p.value_max))).getD 0)
    rw [hmx]
    exact round2_mono (listMean_le _ mx havgs hhigh)

theorem claim_C5_witness :
    scenarioPts ≠ []
      ∧ (∀ p ∈ scenarioPts, p.value_min ≤ p.value_avg ∧ p.value_avg ≤ p.value_max)
      ∧ (statsOf scenarioPts).min_absolute ≤ (statsOf scenarioPts).avg_monthly
      ∧ (statsOf scenarioPts).avg_monthly ≤ (statsOf scenarioPts).max_absolute := by
  refine ⟨by decide, by decide, ?_⟩
  exact claim_C5_min_avg_max scenarioPts (by decide) (by decide) (statsOf scenarioPts)
    (by rw [calculate_statistics, if_neg (by decide)])

/-! ## Claim C6 -/

theorem foldr_eq_of_perm {α β : Type} {f : α → β → β}
    (hf : ∀ a₁ a₂ b, f a₁ (f a₂ b) = f a₂ (f a₁ b)) {l₁ l₂ : List α}
    (h : l₁.Perm l₂) (b : β) : l₁.foldr f b = l₂.foldr f b := by
  induction h with
  | nil => rfl
  | cons x _ ih => simp only [List.foldr_cons, ih]
  | swap x y l => exact hf y x _
  | trans _ _ ih₁ ih₂ => exact ih₁.trans ih₂

theorem any_eq_of_perm {α : Type} (p : α → Bool) {l₁ l₂ : List α}
    (h : l₁.Perm l₂) : l₁.any p = l₂.any p := by
  induction h with
  | nil => rfl
  | cons x _ ih => simp only [List.any_cons, ih]
  | swap x y l => simp only [List.any_cons, ← Bool.or_assoc, Bool.or_comm (p y) (p x)]
  | trans _ _ ih₁ ih₂ => exact ih₁.trans ih₂

theorem minFold_lcomm : ∀ (a₁ a₂ : ℚ) (b : Option ℚ),
    (fun x acc => match acc with | none => some x | some y => some (min x y)) a₁
      ((fun x acc => match acc with | none => some x | some y => some (min x y)) a₂ b)
    = (fun x acc => match acc with | none => some x | some y => some (min x y)) a₂
      ((fun x acc => match acc with | none => some x | some y => some (min x y)) a₁ b) := by
  intro a₁ a₂ b
  cases b <;> simp [min_comm, min_left_comm]

theorem maxFold_lcomm : ∀ (a₁ a₂ : ℚ) (b : Option ℚ),
    (fun x acc => match acc with | none => some x | some y => some (max x y)) a₁
      ((fun x acc => match acc with | none => some x | some y => some (max x y)) a₂ b)
    = (fun x acc => match acc with | none => some x | some y => some (max x y)) a₂
      ((fun x acc => match acc with | none => some x | some y => some (max x y)) a₁ b) := by
  intro a₁ a₂ b
  cases b <;> simp [max_comm, max_left_comm]

theorem minFoldNat_lcomm : ∀ (a₁ a₂ : ℕ) (b : Option ℕ),
    (fun x acc => match acc with | none => some x | some y => some (min x y)) a₁
      ((fun x acc => match acc with | none => some x | some y => some (min x y)) a₂ b)
    = (fun x acc => match acc with | none => some x | some y => some (min x y)) a₂
      ((fun x acc => match acc with | none => some x | some y => some (min x y)) a₁ b) := by
  intro a₁ a₂ b
  cases b <;> simp [min_comm, min_left_comm]

theorem maxFoldNat_lcomm : ∀ (a₁ a₂ : ℕ) (b : Option ℕ),
    (fun x acc => match acc with | none => some x | some y => some (max x y)) a₁
      ((fun x acc => match acc with | none => some x | some y => some (max x y)) a₂ b)
    = (fun x acc => match acc with | none => some x | some y => some (max x y)) a₂
      ((fun x acc => match acc with | none => some x | some y => some (max x y)) a₁ b) := by
  intro a₁ a₂ b
  cases b <;> simp [max_comm, max_left_comm]

/-- C6: the statistics computation is order-invariant: permuting the input
series leaves the entire computed summary unchanged, including the peak-hour
and peak-day lists. -/
theorem claim_C6_order_invariant (pts pts' : List TrendPoint) (h : pts.Perm pts') :
    calculate_statistics pts = calculate_statistics pts' := by
  by_cases hnil : pts = []
  · subst hnil
    have : pts' = [] := List.length_eq_zero.mp (by simpa using h.length_eq.symm)
    rw [this]
  · have hnil' : pts' ≠ [] := by
      intro e
      subst e
      exact hnil (List.length_eq_zero.mp (by simpa using h.length_eq))
    rw [calculate_statistics, calculate_statistics, if_neg hnil, if_neg hnil']
    have hmapAvg : (pts.map (fun p => p.value_avg)).Perm
        (pts'.map (fun p => p.value_avg)) := h.map _
    have hmapMin : (pts.map (fun p => p.value_min)).Perm
        (pts'.map (fun p => p.value_min)) := h.map _
    have hmapMax : (pts.map (fun p => p.value_max)).Perm
        (pts'.map (fun p => p.value_max)) := h.map _
    have hmapClock : (pts.map (fun p => p.clock)).Perm
        (pts'.map (fun p => p.clock)) := h.map _
    have hlen : pts.length = pts'.length := h.length_eq
    have hmean : listMean (pts.map (fun p => p.value_avg))
        = listMean (pts'.map (fun p => p.value_avg)) := by
      rw [listMean, listMean, hmapAvg.sum_eq]
      simp [hlen]
    have hsorted : sortedAsc (pts.map (fun p => p.value_avg))
        = sortedAsc (pts'.map (fun p => p.value_avg)) := by
      rw [sortedAsc, sortedAsc]
      have hperm : (List.insertionSort (fun a b : ℚ => a ≤ b)
            (pts.map (fun p => p.value_avg))).Perm
          (List.insertionSort (fun a b : ℚ => a ≤ b)
            (pts'.map (fun p => p.value_avg))) :=
        (List.perm_insertionSort _ _).trans
          (hmapAvg.trans (List.perm_insertionSort _ _).symm)
      have hs1 : List.Sorted (fun a b : ℚ => a ≤ b)
          (List.insertionSort (fun a b : ℚ => a ≤ b)
            (pts.map (fun p => p.value_avg))) :=
        List.sorted_insertionSort _ _
      have hs2 : List.Sorted (fun a b : ℚ => a ≤ b)
          (List.insertionSort (fun a b : ℚ => a ≤ b)
            (pts'.map (fun p => p.value_avg))) :=
        List.sorted_insertionSort _ _
      exact List.eq_of_perm_of_sorted hperm hs1 hs2
    have hq : ∀ q : ℚ, quantile q (pts.map (fun p => p.value_avg))
        = quantile q (pts'.map (fun p => p.value_avg)) := by
      intro q
      rw [quantile, quantile, hsorted]
    have hminf : foldMin (pts.map (fun p => p.value_min))
        = foldMin (pts'.map (fun p => p.value_min)) :=
      foldr_eq_of_perm minFold_lcomm hmapMin none
    have hmaxf : foldMax (pts.map (fun p => p.value_max))
        = foldMax (pts'.map (fun p => p.value_max)) :=
      foldr_eq_of_perm maxFold_lcomm hmapMax none
    have hvar : sampleVar (pts.map (fun p => p.value_avg))
        = sampleVar (pts'.map (fun p => p.value_avg)) := by
      rw [sampleVar, sampleVar, hmean,
        (hmapAvg.map (fun x =>
          (x - listMean (pts'.map (fun p => p.value_avg))) ^ 2)).sum_eq]
      simp [hlen]
    have hhg : hourGroups pts = hourGroups pts' := by
      rw [hourGroups, hourGroups,
        List.filter_congr (fun a _ => any_eq_of_perm (fun p => hourOf p == a) h)]
      apply List.map_congr_left
      intro a _
      have hfp : (pts.filter (fun p => hourOf p == a)).Perm
          (pts'.filter (fun p => hourOf p == a)) := h.filter _
      have hfm := hfp.map (fun p => p.value_avg)
      rw [bucketMeanHour, bucketMeanHour, listMean, listMean, hfm.sum_eq]
      simp [hfp.length_eq]
    have hdg : dayGroups pts = dayGroups pts' := by
      rw [dayGroups, dayGroups,
        List.filter_congr (fun a _ => any_eq_of_perm (fun p => dayNameOf p == a) h)]
      apply List.map_congr_left
      intro a _
      have hfp : (pts.filter (fun p => dayNameOf p == a)).Perm
          (pts'.filter (fun p => dayNameOf p == a)) := h.filter _
      have hfm := hfp.map (fun p => p.value_avg)
      rw [bucketMeanDay, bucketMeanDay, listMean, listMean, hfm.sum_eq]
      simp [hfp.length_eq]
    have hclkmin : foldMinNat (pts.map (fun p => p.clock))
        = foldMinNat (pts'.map (fun p => p.clock)) :=
      foldr_eq_of_perm minFoldNat_lcomm hmapClock none
    have hclkmax : foldMaxNat (pts.map (fun p => p.clock))
        = foldMaxNat (pts'.map (fun p => p.clock)) :=
      foldr_eq_of_perm maxFoldNat_lcomm hmapClock none
    rw [statsOf, statsOf]
    simp only [hlen, hmean, hq, hminf, hmaxf, hvar, hhg, hdg, hclkmin, hclkmax]

theorem claim_C6_witness :
    calculate_statistics [(⟨0, 10, 10, 10⟩ : TrendPoint), ⟨3600, 20, 20, 20⟩]
      = calculate_statistics [(⟨3600, 20, 20, 20⟩ : TrendPoint), ⟨0, 10, 10, 10⟩] :=
  claim_C6_order_invariant _ _ (List.Perm.swap _ _ _)

/-! ## Claim C2 -/

theorem predDay_firstOfCurrent (now : PyDateTime) (h1 : 1 ≤ now.month)
    (h2 : now.month ≤ 12) :
    predDay (firstOfCurrentMonth now)
      = { year := (prevMonthOf now).1, month := (prevMonthOf now).2,
          day := daysInMonth (prevMonthOf now).2 (prevMonthOf now).1,
          hour := 0, minute := 0, second := 0 } := by
  rcases Nat.lt_or_ge 1 now.month with hlt | hge
  · have hne : now.month ≠ 1 := Nat.ne_of_gt hlt
    rw [predDay, firstOfCurrentMonth]
    simp only [prevMonthOf, if_neg hne]
    rw [if_neg (by simp), if_pos (by simpa using hlt)]
  · have heq : now.month = 1 := le_antisymm hge h1
    rw [predDay, firstOfCurrentMonth]
    simp only [prevMonthOf, if_pos heq]
    rw [if_neg (by simp), if_neg (by simp [heq])]
    have h31 : daysInMonth 12 (now.year - 1) = 31 := rfl
    simp [heq, h31]

theorem parse_prev_from (now : PyDateTime) (h1 : 1 ≤ now.month)
    (h2 : now.month ≤ 12) :
    parse_time now "now-1M/M" false
      = some (toTimestamp (firstInstantOfPrevMonth now)) := by
  rw [parse_time, if_neg (by decide), if_neg (by decide), if_pos rfl]
  rw [predDay_firstOfCurrent now h1 h2]
  rfl

theorem parse_prev_to (now : PyDateTime) (h1 : 1 ≤ now.month)
    (h2 : now.month ≤ 12) :
    parse_time now "now-1M/M" true
      = some (toTimestamp (lastInstantOfPrevMonth now)) := by
  rw [parse_time, if_neg (by decide), if_neg (by decide), if_pos rfl]
  have hsec : predSecond (firstOfCurrentMonth now)
      = { predDay (firstOfCurrentMonth now) with
          hour := 23, minute := 59, second := 59 } := by
    rw [predSecond]
    simp [firstOfCurrentMonth]
  rw [hsec, predDay_firstOfCurrent now h1 h2]
  rfl

/-- C2: resolving `previous_month` yields exactly the pair (first instant of
the calendar month strictly before the month containing "now", last instant
of that same prior month), regardless of the day-of-month of "now". -/
theorem claim_C2_previous_month (now : PyDateTime) (hv : ValidDateTime now) :
    calculate_time_range "previous_month" = some ("now-1M/M", "now-1M/M")
      ∧ convert_time_range now "now-1M/M" "now-1M/M"
          = some (toTimestamp (firstInstantOfPrevMonth now),
                  toTimestamp (lastInstantOfPrevMonth now)) := by
  obtain ⟨h1, h2, _⟩ := hv
  refine ⟨by decide, ?_⟩
  rw [convert_time_range]
  rw [parse_prev_from now h1 h2, parse_prev_to now h1 h2]
  rfl

theorem claim_C2_witness :
    ValidDateTime ⟨2024, 3, 15, 10, 30, 0⟩
      ∧ (calculate_time_range "previous_month" = some ("now-1M/M", "now-1M/M")
        ∧ convert_time_range ⟨2024, 3, 15, 10, 30, 0⟩ "now-1M/M" "now-1M/M"
            = some (toTimestamp (firstInstantOfPrevMonth ⟨2024, 3, 15, 10, 30, 0⟩),
                    toTimestamp (lastInstantOfPrevMonth ⟨2024, 3, 15, 10, 30, 0⟩))) :=
  ⟨by decide, claim_C2_previous_month ⟨2024, 3, 15, 10, 30, 0⟩ (by decide)⟩

/-! ## Claim C4 -/

/-- A report state holding exactly one accumulated entry. -/
def cexEntry : ReportEntry :=
  { host := "host1", item := "item1", trends := [], stats := none, conclusion := none }

def cexGen : PDFGen :=
  { output_dir := "out", items_data := [cexEntry], report_config := [],
    report_defaults := initialDefaults, host_configs := [], current_host := "" }

/-- C4 counterexample: a render that succeeds (returns a path and a story)
leaves the accumulated entry list unchanged and non-empty — `generate_report`
never consumes or clears `items_data`. -/
theorem claim_C4_counterexample :
    ((generate_report cexGen "informe_ejecutivo" "20240101_000000").2).isSome = true
      ∧ (generate_report cexGen "informe_ejecutivo" "20240101_000000").1.items_data
          = [cexEntry]
      ∧ [cexEntry] ≠ ([] : List ReportEntry) := by
  have hne : cexGen.items_data ≠ [] := by decide
  rw [generate_report, if_neg hne]
  exact ⟨rfl, rfl, by decide⟩

/-- C4 (amended): the accumulating entry list is append-only — each add
appends exactly one entry at the end and modifies no other state — and a
render (successful or not) leaves the list unchanged; the list becomes empty
only through the separate `clear_data` operation, which the render path never
invokes. -/
theorem claim_C4_append_only (g : PDFGen) (host_name item_name : String)
    (trends : List TrendPoint) (stats : Option Stats) (conclusion : Option String)
    (report_name timestamp : String) :
    (add_item_data g host_name item_name trends stats conclusion).items_data
        = g.items_data ++
          [{ host := host_name, item := item_name, trends := trends,
             stats := stats, conclusion := conclusion }]
      ∧ (add_item_data g host_name item_name trends stats conclusion).output_dir
          = g.output_dir
      ∧ (add_item_data g host_name item_name trends stats conclusion).report_config
          = g.report_config
      ∧ (add_item_data g host_name item_name trends stats conclusion).report_defaults
          = g.report_defaults
      ∧ (add_item_data g host_name item_name trends stats conclusion).host_configs
          = g.host_configs
      ∧ (add_item_data g host_name item_name trends stats conclusion).current_host
          = g.current_host
      ∧ (generate_report g report_name timestamp).1.items_data = g.items_data
      ∧ (clear_data g).items_data = [] := by
  refine ⟨rfl, rfl, rfl, rfl, rfl, rfl, ?_, rfl⟩
  rw [generate_report]
  split_ifs <;> rfl

/-! ## Claim C8 -/

/-- C8: rendering with zero accumulated entries returns the empty-path
failure marker without building any story or creating a file (the `none`
payload models "no output file"), and leaves the state untouched. -/
theorem claim_C8_empty_render (g : PDFGen) (report_name timestamp : String)
    (h : g.items_data = []) :
    generate_report g report_name timestamp = (g, none) := by
  rw [generate_report, if_pos h]

def emptyGen : PDFGen :=
  { output_dir := "out", items_data := [], report_config := [],
    report_defaults := initialDefaults, host_configs := [], current_host := "" }

theorem claim_C8_witness :
    emptyGen.items_data = []
      ∧ generate_report emptyGen "informe_ejecutivo" "20240101_000000"
          = (emptyGen, none) :=
  ⟨rfl, claim_C8_empty_render emptyGen "informe_ejecutivo" "20240101_000000" rfl⟩

/-! ## Claim C9 -/

theorem titles_itemElems (e : ReportEntry) :
    (itemElems e).flatMap titlesIn = [e.item.toUpper] := by
  rw [itemElems]
  cases hst : e.stats <;> by_cases ht : e.trends = [] <;>
    by_cases hc : e.conclusion.getD "" = "" <;>
      simp [ht, hc, titlesIn, titleOf]

theorem pb_count_itemElems (e : ReportEntry) :
    (itemElems e).countP isPageBreak = 0 := by
  rw [itemElems]
  cases hst : e.stats <;> by_cases ht : e.trends = [] <;>
    by_cases hc : e.conclusion.getD "" = "" <;>
      simp [ht, hc, isPageBreak]

theorem headers_itemElems (e : ReportEntry) :
    (itemElems e).filterMap headerHostOf = [] := by
  rw [itemElems]
  cases hst : e.stats <;> by_cases ht : e.trends = [] <;>
    by_cases hc : e.conclusion.getD "" = "" <;>
      simp [ht, hc, headerHostOf]

theorem titles_items (items : List ReportEntry) :
    ((items.flatMap itemElems).flatMap titlesIn)
      = items.map (fun e => e.item.toUpper) := by
  induction items with
  | nil => rfl
  | cons e es ih =>
    rw [List.flatMap_cons, List.flatMap_append, titles_itemElems, ih]
    rfl

theorem pb_count_items (items : List ReportEntry) :
    (items.flatMap itemElems).countP isPageBreak = 0 := by
  induction items with
  | nil => rfl
  | cons e es ih =>
    rw [List.flatMap_cons, List.countP_append, pb_count_itemElems, ih]

theorem headers_items (items : List ReportEntry) :
    (items.flatMap itemElems).filterMap headerHostOf = [] := by
  induction items with
  | nil => rfl
  | cons e es ih =>
    rw [List.flatMap_cons, List.filterMap_append, headers_itemElems, ih]
    rfl

theorem uptime_no_pb (g : PDFGen) :
    (uptimeSection g).countP isPageBreak = 0 := by
  rw [uptimeSection]
  split_ifs <;> simp [isPageBreak]

theorem uptime_no_header (g : PDFGen) :
    (uptimeSection g).filterMap headerHostOf = [] := by
  rw [uptimeSection]
  split_ifs <;> simp [headerHostOf]

theorem uptime_no_titles (g : PDFGen) :
    (uptimeSection g).flatMap titlesIn = [] := by
  rw [uptimeSection]
  split_ifs <;> simp [titlesIn]

theorem pb_count_hostSection (g : PDFGen) (wb : Bool)
    (grp : String × List ReportEntry) :
    (hostSection g wb grp).countP isPageBreak = (if wb then 1 else 0) := by
  rw [hostSection, List.countP_append, List.countP_append, List.countP_append,
    List.countP_append, uptime_no_pb, pb_count_items]
  cases wb <;>
    simp [isPageBreak, operativeBlock, dimensionsTable, List.countP_cons]

theorem headers_hostSection (g : PDFGen) (wb : Bool)
    (grp : String × List ReportEntry) :
    (hostSection g wb grp).filterMap headerHostOf = [grp.1] := by
  rw [hostSection, List.filterMap_append, List.filterMap_append,
    List.filterMap_append, List.filterMap_append, uptime_no_header, headers_items]
  cases wb <;>
    simp [headerHostOf, operativeBlock, dimensionsTable, List.filterMap_cons]

theorem titles_hostSection (g : PDFGen) (wb : Bool)
    (grp : String × List ReportEntry) :
    (hostSection g wb grp).flatMap titlesIn
      = grp.2.map (fun e => e.item.toUpper) := by
  rw [hostSection, List.flatMap_append, List.flatMap_append,
    List.flatMap_append, List.flatMap_append, uptime_no_titles, titles_items]
  cases wb <;>
    simp [titlesIn, operativeBlock, dimensionsTable, List.flatMap_cons]

theorem pb_count_sections (g : PDFGen) (grps : List (String × List ReportEntry)) :
    (grps.flatMap (hostSection g true)).countP isPageBreak = grps.length := by
  induction grps with
  | nil => rfl
  | cons grp rest ih =>
    rw [List.flatMap_cons, List.countP_append, pb_count_hostSection, ih]
    simp [List.length_cons]
    omega

theorem headers_sections (g : PDFGen) (grps : List (String × List ReportEntry)) :
    (grps.flatMap (hostSection g true)).filterMap headerHostOf
      = grps.map Prod.fst := by
  induction grps with
  | nil => rfl
  | cons grp rest ih =>
    rw [List.flatMap_cons, List.filterMap_append, headers_hostSection, ih]
    rfl

theorem titles_sections (g : PDFGen) (grps : List (String × List ReportEntry)) :
    (grps.flatMap (hostSection g true)).flatMap titlesIn
      = grps.flatMap (fun grp => grp.2.map (fun e => e.item.toUpper)) := by
  induction grps with
  | nil => rfl
  | cons grp rest ih =>
    rw [List.flatMap_cons, List.flatMap_append, titles_hostSection, ih]
    rfl

/-- C9: rendering partitions the entries by host name preserving first-seen
host order, emits exactly H−1 explicit page breaks for H distinct hosts (one
before every host section except the first), and within each host section
renders the items in the order they were added. -/
theorem claim_C9_structure (g : PDFGen) (h : g.items_data ≠ []) :
    (buildStory g).countP isPageBreak = (hostKeys g.items_data).length - 1
      ∧ (buildStory g).filterMap headerHostOf = hostKeys g.items_data
      ∧ (buildStory g).flatMap titlesIn
          = (hostKeys g.items_data).flatMap
              (fun hn => (g.items_data.filter (fun x => x.host == hn)).map
                (fun x => x.item.toUpper)) := by
  rcases hl : g.items_data with _ | ⟨e, es⟩
  · exact absurd hl h
  · have hks : hostKeys (e :: es)
        = e.host :: (hostKeys es).filter (fun x => x != e.host) := rfl
    have hstory : buildStory g
        = hostSection g false
            (e.host, (e :: es).filter (fun x => x.host == e.host)) ++
          (((hostKeys es).filter (fun x => x != e.host)).map
            (fun hn => (hn, (e :: es).filter (fun x => x.host == hn)))).flatMap
            (hostSection g true) := by
      rw [buildStory, hl, groupsOf, hks, List.map_cons]
    refine ⟨?_, ?_, ?_⟩
    · rw [hstory, List.countP_append, pb_count_hostSection, pb_count_sections, hks]
      simp
    · rw [hstory, List.filterMap_append, headers_hostSection, headers_sections,
        List.map_map, hks]
      simp
      exact List.map_id _
    · rw [hstory, List.flatMap_append, titles_hostSection, titles_sections,
        List.flatMap_map, hks, List.flatMap_cons]

/-- Report entries across two hosts used as the C9 witness. -/
def witGen : PDFGen :=
  { output_dir := "out",
    items_data :=
      [{ host := "hostA", item := "cpu", trends := [], stats := none,
         conclusion := none },
       { host := "hostA", item := "mem", trends := [], stats := none,
         conclusion := none },
       { host := "hostB", item := "disk", trends := [], stats := none,
         conclusion := none }],
    report_config := [], report_defaults := initialDefaults,
    host_configs := [], current_host := "" }

theorem claim_C9_witness :
    witGen.items_data ≠ []
      ∧ ((buildStory witGen).countP isPageBreak
            = (hostKeys witGen.items_data).length - 1
        ∧ (buildStory witGen).filterMap headerHostOf = hostKeys witGen.items_data
        ∧ (buildStory witGen).flatMap titlesIn
            = (hostKeys witGen.items_data).flatMap
                (fun hn => (witGen.items_data.filter (fun x => x.host == hn)).map
                  (fun x => x.item.toUpper))) :=
  ⟨by decide, claim_C9_structure witGen (by decide)⟩

/-! ## Claim C10 -/

theorem subRun_mem (p : Char → Bool) :
    ∀ (l : List Char) (b : Bool) (c : Char), c ∈ subRunUnderscore p l b →
      c = '_' ∨ (c ∈ l ∧ p c = false) := by
  intro l
  induction l with
  | nil => intro b c hc; simp [subRunUnderscore] at hc
  | cons d ds ih =>
    intro b c hc
    rw [subRunUnderscore] at hc
    by_cases hd : p d
    · rw [if_pos hd] at hc
      cases b with
      | true =>
        rcases ih true c hc with h1 | ⟨h2, h3⟩
        · exact Or.inl h1
        · exact Or.inr ⟨List.mem_cons_of_mem d h2, h3⟩
      | false =>
        rcases List.mem_cons.mp hc with h1 | h1
        · exact Or.inl h1
        · rcases ih true c h1 with h2 | ⟨h3, h4⟩
          · exact Or.inl h2
          · exact Or.inr ⟨List.mem_cons_of_mem d h3, h4⟩
    · rw [if_neg hd] at hc
      rcases List.mem_cons.mp hc with h1 | h1
      · subst h1
        exact Or.inr ⟨List.mem_cons_self _ _, by simpa using hd⟩
      · rcases ih false c h1 with h2 | ⟨h3, h4⟩
        · exact Or.inl h2
        · exact Or.inr ⟨List.mem_cons_of_mem d h3, h4⟩

theorem head_dropWhile (p : Char → Bool) :
    ∀ (l : List Char) (c : Char), (l.dropWhile p).head? = some c → p c = false := by
  intro l
  induction l with
  | nil => intro c hc; simp [List.dropWhile] at hc
  | cons d ds ih =>
    intro c hc
    rw [List.dropWhile_cons] at hc
    by_cases hd : p d
    · rw [if_pos hd] at hc
      exact ih c hc
    · rw [if_neg hd] at hc
      rcases Option.some_inj.mp hc with rfl
      simpa using hd

theorem stripUnderscores_mem (l : List Char) (c : Char)
    (hc : c ∈ stripUnderscores l) : c ∈ l := by
  rw [stripUnderscores] at hc
  rw [List.mem_reverse] at hc
  have h1 := (List.dropWhile_sublist _).mem hc
  rw [List.mem_reverse] at h1
  exact (List.dropWhile_sublist _).mem h1

theorem stripUnderscores_length (l : List Char) :
    (stripUnderscores l).length ≤ l.length := by
  rw [stripUnderscores, List.length_reverse]
  calc ((l.dropWhile (fun c => c = '_')).reverse.dropWhile (fun c => c = '_')).length
      ≤ (l.dropWhile (fun c => c = '_')).reverse.length :=
        (List.dropWhile_sublist _).length_le
    _ = (l.dropWhile (fun c => c = '_')).length := List.length_reverse _
    _ ≤ l.length := (List.dropWhile_sublist _).length_le

theorem stripUnderscores_head (l : List Char) (c : Char)
    (hc : (stripUnderscores l).head? = some c) : c ≠ '_' := by
  rw [stripUnderscores, List.head?_reverse] at hc
  have hne : (l.dropWhile (fun c => c = '_')).reverse.dropWhile (fun c => c = '_')
      ≠ [] := by
    intro e
    rw [e] at hc
    exact Option.noConfusion hc
  rcases List.dropWhile_suffix
      (l := (l.dropWhile (fun c => c = '_')).reverse) (p := fun c => c = '_')
    with ⟨t, ht⟩
  have h6 : (l.dropWhile (fun c => c = '_')).reverse.getLast? = some c := by
    rw [← ht, List.getLast?_append_of_ne_nil _ hne]
    exact hc
  rw [List.getLast?_reverse] at h6
  have := head_dropWhile (fun c => c = '_') l c h6
  simpa using this

theorem stripUnderscores_last (l : List Char) (c : Char)
    (hc : (stripUnderscores l).getLast? = some c) : c ≠ '_' := by
  rw [stripUnderscores, List.getLast?_reverse] at hc
  have := head_dropWhile (fun c => c = '_') (l.dropWhile (fun c => c = '_')).reverse
    c hc
  simpa using this

/-- C10: for every input, the filename sanitizer returns at most 100
characters, none of which is one of the reserved characters
`< > : " / \ | ? *` or a whitespace character, and the result neither starts
nor ends with an underscore. -/
theorem claim_C10_sanitize (name : List Char) :
    (sanitize_filename name).length ≤ 100
      ∧ (∀ c ∈ sanitize_filename name,
          isInvalidFileChar c = false ∧ isPySpace c = false)
      ∧ (∀ c, (sanitize_filename name).head? = some c → c ≠ '_')
      ∧ (∀ c, (sanitize_filename name).getLast? = some c → c ≠ '_') := by
  refine ⟨?_, ?_, ?_, ?_⟩
  · calc (sanitize_filename name).length
        ≤ ((subRunUnderscore (fun c => c = '_')
            (subRunUnderscore isPySpace
              (name.map (fun c => if isInvalidFileChar c then '_' else c)) false)
            false).take 100).length := stripUnderscores_length _
      _ ≤ 100 := List.length_take_le _ _
  · intro c hc
    have h3 := stripUnderscores_mem _ _ hc
    have h4 := (List.take_sublist 100 _).mem h3
    rcases subRun_mem (fun c => c = '_') _ false c h4 with h5 | ⟨h5, _⟩
    · subst h5; exact ⟨rfl, rfl⟩
    · rcases subRun_mem isPySpace _ false c h5 with h6 | ⟨h6, h7⟩
      · subst h6; exact ⟨rfl, rfl⟩
      · rcases List.mem_map.mp h6 with ⟨d, _, hd⟩
        by_cases hdi : isInvalidFileChar d
        · rw [if_pos hdi] at hd
          subst hd; exact ⟨rfl, rfl⟩
        · rw [if_neg hdi] at hd
          subst hd
          exact ⟨by simpa using hdi, h7⟩
  · intro c hc
    exact stripUnderscores_head _ c hc
  · intro c hc
    exact stripUnderscores_last _ c hc

theorem claim_C10_witness :
    (sanitize_filename ['_', 'a', ' ', 'b', ':', 'c', '_']).length ≤ 100
      ∧ (∀ c ∈ sanitize_filename ['_', 'a', ' ', 'b', ':', 'c', '_'],
          isInvalidFileChar c = false ∧ isPySpace c = false)
      ∧ (∀ c, (sanitize_filename ['_', 'a', ' ', 'b', ':', 'c', '_']).head? = some c
          → c ≠ '_')
      ∧ (∀ c, (sanitize_filename ['_', 'a', ' ', 'b', ':', 'c', '_']).getLast? = some c
          → c ≠ '_') :=
  claim_C10_sanitize ['_', 'a', ' ', 'b', ':', 'c', '_']
